import Mathlib

/-!
# Verification of the faceted sharded harvesting engine

Shallow embedding of `src/linkedin_scraper/src/linkedin_scraper.py` (the
API-only scraper: rate limiter, pagination loop, dedup/provenance merge,
orchestrator) and of the fallback-path pieces of
`src/linkedin_scraper/linkedin_scraper.py` (`scrape_shard_optimized`,
`get_jobs_dom_smart`).

Modelling conventions:
- Python floats are modelled as `ℚ` (the delay arithmetic is exact decimal
  arithmetic: `* 0.9`, `* 1.5`, `* 0.8`, ...).
- `random.uniform(a, b)` is modelled as `a + (b - a) * r` for an arbitrary
  `r ∈ [0, 1]` supplied explicitly.
- HTTP transport and JSON parsing are external collaborators; they are
  modelled as oracles: a page oracle `Nat → Except String (List String)`
  (`.error` = non-200 status or a raised transport/parse exception, `.ok` =
  the parsed `elements` list of job-card URNs) and a detail oracle
  `String → Option Job` (`none` = the swallowed per-record failure in
  `get_job_details_api`).
- `ThreadPoolExecutor`/`as_completed` collect detail results in a
  nondeterministic order; the embedding collects them in submission order
  (one admissible schedule). No claim here depends on intra-shard order.
- Mutable Python state (lists, dicts, sets, the limiter object) is passed
  explicitly; dicts are association lists with insert-or-replace-in-place
  semantics, sets are lists with insert-if-absent.
-/

set_option maxRecDepth 8000

/-- `EXP_CODES` from the source: experience-level facet values. -/
def EXP_CODES : List String := ["1", "2", "3", "4", "5", "6"]

/-- `JT_CODES` from the source: job-type facet values. -/
def JT_CODES : List String := ["I", "F", "C", "T", "P", "V", "O"]

/-- `WT_CODES` from the source: workplace-type facet values. -/
def WT_CODES : List String := ["2", "1", "3"]

/-- `EXP_LABEL` dict from the source. -/
def EXP_LABEL : List (String × String) :=
  [("1", "intern"), ("2", "entry"), ("3", "associate"), ("4", "mid-senior"),
   ("5", "director"), ("6", "executive")]

/-- `JT_LABEL` dict from the source. -/
def JT_LABEL : List (String × String) :=
  [("I", "internship"), ("F", "full_time"), ("C", "contract"), ("T", "temporary"),
   ("P", "part_time"), ("V", "volunteer"), ("O", "other")]

/-- `WT_LABEL` dict from the source. -/
def WT_LABEL : List (String × String) :=
  [("1", "on_site"), ("2", "remote"), ("3", "hybrid")]

/-- `MAX_PAGES_PER_SHARD = 5` from the source. -/
def MAX_PAGES_PER_SHARD : Nat := 5

/-- `BREAK_INTERVAL = 10` from the source. -/
def BREAK_INTERVAL : Nat := 10

/-- State of the `AdaptiveRateLimiter` class (floats as `ℚ`). -/
structure AdaptiveRateLimiter where
  base_delay : ℚ
  max_delay : ℚ
  min_delay : ℚ
  current_delay : ℚ
  error_count : Nat
  success_count : Nat
  response_times : List ℚ
  deriving DecidableEq, Repr

/-- `AdaptiveRateLimiter.__init__(base_delay, max_delay, min_delay)`. -/
def mkLimiter (base maxd mind : ℚ) : AdaptiveRateLimiter :=
  { base_delay := base, max_delay := maxd, min_delay := mind,
    current_delay := base, error_count := 0, success_count := 0,
    response_times := [] }

/-- `AdaptiveRateLimiter()` with the module defaults
`BASE_DELAY = 1.0`, `MAX_DELAY = 5.0`, `MIN_DELAY = 0.3`. -/
def limiterInit : AdaptiveRateLimiter := mkLimiter 1 5 (3/10)

/-- The `if len(self.response_times) > 10: self.response_times.pop(0)` step. -/
def trimTimes (ts : List ℚ) : List ℚ :=
  if ts.length > 10 then ts.drop 1 else ts

/-- `AdaptiveRateLimiter.record_success(response_time)`.  `rt = none` models
calling without the argument / with `None`; a zero value is falsy in Python
(`if response_time:`), so it is not appended either.  The success counter is
incremented unconditionally and is never reset by `record_error`; the delay
is multiplied by 0.9 (floored at `min_delay`) whenever the incremented
counter is divisible by 3. -/
def AdaptiveRateLimiter.record_success (l : AdaptiveRateLimiter) (rt : Option ℚ) :
    AdaptiveRateLimiter :=
  let l1 : AdaptiveRateLimiter :=
    { l with
      success_count := l.success_count + 1,
      response_times :=
        match rt with
        | some t => if t ≠ 0 then trimTimes (l.response_times ++ [t]) else l.response_times
        | none => l.response_times }
  if l1.success_count % 3 = 0 then
    { l1 with current_delay := max l1.min_delay (l1.current_delay * (9/10)) }
  else l1

/-- `AdaptiveRateLimiter.record_error()`: increment the error counter and set
`current_delay = min(max_delay, current_delay * 1.5)`. -/
def AdaptiveRateLimiter.record_error (l : AdaptiveRateLimiter) : AdaptiveRateLimiter :=
  { l with
    error_count := l.error_count + 1,
    current_delay := min l.max_delay (l.current_delay * (3/2)) }

/-- `random.uniform(a, b)` modelled with an explicit sample `r ∈ [0,1]`. -/
def uniformAt (a b r : ℚ) : ℚ := a + (b - a) * r

/-- `AdaptiveRateLimiter.get_delay()`:
`random.uniform(current_delay * 0.8, current_delay * 1.2)`. -/
def AdaptiveRateLimiter.get_delay (l : AdaptiveRateLimiter) (r : ℚ) : ℚ :=
  uniformAt (l.current_delay * (4/5)) (l.current_delay * (6/5)) r

/-- `AdaptiveRateLimiter.get_break_delay()`:
`random.uniform(current_delay * 1.2, current_delay * 1.5)`. -/
def AdaptiveRateLimiter.get_break_delay (l : AdaptiveRateLimiter) (r : ℚ) : ℚ :=
  uniformAt (l.current_delay * (6/5)) (l.current_delay * (3/2)) r

/-- Limiter states reachable in `scrape_all_shards_api_only`: the limiter is
constructed once with the module defaults and then only receives
`record_success` / `record_error` events (`get_delay`/`get_break_delay` do
not mutate state). -/
inductive LimiterReachable : AdaptiveRateLimiter → Prop
  | init : LimiterReachable limiterInit
  | succ (l : AdaptiveRateLimiter) (rt : Option ℚ) :
      LimiterReachable l → LimiterReachable (l.record_success rt)
  | err (l : AdaptiveRateLimiter) :
      LimiterReachable l → LimiterReachable l.record_error

/-- The canonical harvested record: the fields of the dict returned by
`get_job_details_api` that the verified claims touch, plus the
shard-attribution fields the orchestrator adds in place (absent — `none` —
until a merge tags them).  The remaining payload fields of the enhanced
extraction (skills, salary, benefits, ...) are carried by no claim and are
omitted. -/
structure Job where
  job_id : String
  title : String
  company_name : String
  posted_dt : Option String
  is_repost : Bool
  url : String
  source : String
  shard_key : Option String := none
  exp_level : Option String := none
  job_type : Option String := none
  workplace_type : Option String := none
  filters : Option String := none
  experience_level : Option String := none
  job_type_label : Option String := none
  workplace_type_label : Option String := none
  deriving DecidableEq, Repr

/-- `is_blacklisted(company_name)`: `None` (modelled `none`), the empty
string (both falsy in Python) and the placeholder `'N/A'` are never
blacklisted; otherwise the company name is searched with `BLACKLIST_RE`.
The regex engine is an external collaborator, so the search is a parameter
`search : String → Bool` standing for `bool(BLACKLIST_RE.search(·))`. -/
def is_blacklisted (search : String → Bool) (company_name : Option String) : Bool :=
  match company_name with
  | none => false
  | some s => if s = "" ∨ s = "N/A" then false else search s

/-- First maximal digit run of a character list, or `none`:
the semantics of `re.search(r'(\d+)', urn)`. -/
def digitRunAux : List Char → Option (List Char)
  | [] => none
  | c :: rest =>
      if c.isDigit then some (c :: rest.takeWhile (fun d => d.isDigit))
      else digitRunAux rest

/-- Job-id extraction from a job-card URN:
`re.search(r'(\d+)', job_card_urn)` in `get_jobs_api`. -/
def extract_job_id (s : String) : Option String :=
  (digitRunAux s.data).map (fun l => String.mk l)

/-- `get_job_details_concurrent(session, job_ids)`: resolve every id with
the detail oracle (`none` = swallowed failure, id dropped) and keep records
whose company is not blacklisted.  Results are collected in submission
order (one admissible `as_completed` schedule). -/
def get_job_details_concurrent (details : String → Option Job) (search : String → Bool)
    (job_ids : List String) : List Job :=
  job_ids.filterMap (fun id =>
    match details id with
    | some jd => if is_blacklisted search (some jd.company_name) then none else some jd
    | none => none)

/-- The `while page < max_pages` body of `get_jobs_api`, with `fuel =
max_pages - page` and an explicit count of page requests issued.  The page
oracle returns `.error` for a non-200 status or a raised exception (both
`break` out of the loop with the jobs gathered so far); `.ok elements` is
the parsed URN list.  A short page (`len(elements) < count`) ends the
results; only a page of exactly `count` elements advances; a longer page
(impossible for a well-behaved provider) also stops. -/
def getJobsApiGo (pages : Nat → Except String (List String))
    (details : String → Option Job) (search : String → Bool) (count : Nat) :
    Nat → Nat → List Job → Nat → List Job × Nat
  | 0, _, acc, reqs => (acc, reqs)
  | fuel + 1, page, acc, reqs =>
      match pages page with
      | Except.error _ => (acc, reqs + 1)
      | Except.ok elements =>
          if elements.isEmpty then (acc, reqs + 1)
          else
            let job_ids := elements.filterMap extract_job_id
            let page_jobs := get_job_details_concurrent details search job_ids
            let acc2 := acc ++ page_jobs
            if elements.length < count then (acc2, reqs + 1)
            else if elements.length = count then
              getJobsApiGo pages details search count fuel (page + 1) acc2 (reqs + 1)
            else (acc2, reqs + 1)

/-- `get_jobs_api(session, ...)`: the shard-scoped listing loop.  Returns
the gathered jobs and the number of page requests issued. -/
def get_jobs_api (pages : Nat → Except String (List String))
    (details : String → Option Job) (search : String → Bool) (count : Nat) :
    List Job × Nat :=
  getJobsApiGo pages details search count MAX_PAGES_PER_SHARD 0 [] 0

/-- `scrape_shard_api_only` from `src/linkedin_scraper.py`: API only — an
empty result returns `[]` with no fallback of any kind. -/
def scrape_shard_api_only (pages : Nat → Except String (List String))
    (details : String → Option Job) (search : String → Bool) : List Job :=
  let api_jobs := (get_jobs_api pages details search 100).1
  if api_jobs.isEmpty then [] else api_jobs

/-- A rendered job card as seen by `get_jobs_dom_smart`: each selector
lookup can fail (`none`). -/
structure Card where
  job_id : Option String
  title : Option String
  company_name : Option String
  posted_dt : Option String
  deriving DecidableEq, Repr

/-- `get_jobs_dom_smart(driver, ...)` from `linkedin_scraper.py` (the
optimized variant): the rendered-page fallback.  `cards = []` models
`check_page_has_jobs` finding nothing (early empty detection).  At most 25
cards are read; a card without a job id is skipped; missing title/company
default to `'N/A'`; blacklisted companies are skipped; and every record is
built with `is_repost = False` (the DOM cannot detect reposts). -/
def get_jobs_dom_smart (search : String → Bool) (cards : List Card) : List Job :=
  if cards.isEmpty then []
  else
    (cards.take 25).filterMap (fun c =>
      match c.job_id with
      | none => none
      | some jid =>
          let title := c.title.getD "N/A"
          let company := c.company_name.getD "N/A"
          if is_blacklisted search (some company) then none
          else some
            { job_id := jid, title := title, company_name := company,
              posted_dt := c.posted_dt, is_repost := false,
              url := "https://www.linkedin.com/jobs/view/" ++ jid ++ "/",
              source := "dom" })

/-- `scrape_shard_optimized` from `linkedin_scraper.py`: API first; if the
API path yields zero jobs — for any reason: empty first page, transport
error, every record filtered — fall back to the rendered-page path.  The
second component records whether the fallback was invoked (i.e. which
branch returned). -/
def scrape_shard_optimized (pages : Nat → Except String (List String))
    (details : String → Option Job) (search : String → Bool)
    (cards : List Card) : List Job × Bool :=
  let api_jobs := (get_jobs_api pages details search 100).1
  if api_jobs.isEmpty then (get_jobs_dom_smart search cards, true)
  else (api_jobs, false)

/-- One entry of `shard_mappings[job_id]` (the provenance map). -/
structure MappingEntry where
  shard_key : String
  shard_num : Nat
  labels : String
  deriving DecidableEq, Repr

/-- One row of `shard_results` (the per-shard ledger). -/
structure ShardResultRow where
  exp_level : String
  job_type : String
  workplace_type : String
  job_count : Nat
  labels : String
  deriving DecidableEq, Repr

/-- Python dict assignment `m[k] = v`: replace in place if the key is
present, append otherwise. -/
def alistInsert {α : Type} (m : List (String × α)) (k : String) (v : α) :
    List (String × α) :=
  match m with
  | [] => [(k, v)]
  | (k', v') :: rest =>
      if k' = k then (k, v) :: rest else (k', v') :: alistInsert rest k v

/-- `if job_id not in shard_mappings: shard_mappings[job_id] = []` followed
by `shard_mappings[job_id].append(e)`. -/
def mappingsAppend (m : List (String × List MappingEntry)) (id : String)
    (e : MappingEntry) : List (String × List MappingEntry) :=
  match m.lookup id with
  | some l => alistInsert m id (l ++ [e])
  | none => m ++ [(id, [e])]

/-- The in-place mutation of an incoming job dict in the merge loop of
`scrape_all_shards_api_only`: shard attribution fields are set on the
incoming record (`EXP_LABEL.get(exp_level, 'unknown')` etc. for the
human-readable labels). -/
def tagJob (shardKey e j w labels : String) (job : Job) : Job :=
  { job with
    shard_key := some shardKey, exp_level := some e, job_type := some j,
    workplace_type := some w, filters := some labels,
    experience_level := some ((EXP_LABEL.lookup e).getD "unknown"),
    job_type_label := some ((JT_LABEL.lookup j).getD "unknown"),
    workplace_type_label := some ((WT_LABEL.lookup w).getD "unknown") }

/-- The slice of `HarvestState` the per-record merge loop touches: the
canonical record list `all_jobs`, the dedup set `seen_job_ids` and the
provenance map `shard_mappings`. -/
structure MergeState where
  all_jobs : List Job
  seen_job_ids : List String
  shard_mappings : List (String × List MappingEntry)
  deriving DecidableEq, Repr

/-- One iteration of `for job in shard_jobs:` in
`scrape_all_shards_api_only`: tag the incoming record with its shard,
append the shard to the record's provenance list, then insert the record
into the canonical list only if its `job_id` was never seen. -/
def mergeJob (shardKey : String) (shardNum : Nat) (e j w labels : String)
    (st : MergeState) (job0 : Job) : MergeState :=
  let job := tagJob shardKey e j w labels job0
  let mappings := mappingsAppend st.shard_mappings job.job_id
    { shard_key := shardKey, shard_num := shardNum, labels := labels }
  if job.job_id ∈ st.seen_job_ids then
    { st with shard_mappings := mappings }
  else
    { all_jobs := st.all_jobs ++ [job],
      seen_job_ids := st.seen_job_ids ++ [job.job_id],
      shard_mappings := mappings }

/-- The whole `for job in shard_jobs:` loop for one shard. -/
def mergeShard (shardKey : String) (shardNum : Nat) (e j w labels : String)
    (st : MergeState) (jobs : List Job) : MergeState :=
  jobs.foldl (mergeJob shardKey shardNum e j w labels) st

/-- A shard descriptor: one `(exp_level, job_type, workplace_type)` tuple. -/
abbrev Shard := String × String × String

/-- `generate_prioritized_shards(priority_shards)`: with a historical
priority list, split each `"e_j_w"` key back into a tuple; otherwise the
default nested iteration order — experience outermost, job type, then
workplace type innermost.  (With `priority_shards = None` as
`load_shard_priorities` currently returns, the default order is used.) -/
def generate_prioritized_shards (priority_shards : Option (List String)) : List Shard :=
  match priority_shards with
  | some keys =>
      keys.map (fun k =>
        match k.splitOn "_" with
        | [e, j, w] => (e, j, w)
        | _ => ("", "", ""))
  | none =>
      EXP_CODES.flatMap (fun exp_level =>
        JT_CODES.flatMap (fun job_type =>
          WT_CODES.map (fun workplace_type => (exp_level, job_type, workplace_type))))

/-- `shard_key = f"{exp_level}_{job_type}_{workplace_type}"`. -/
def shardKeyOf (s : Shard) : String := s.1 ++ "_" ++ s.2.1 ++ "_" ++ s.2.2

/-- `f"{EXP_LABEL[exp_level]}+{JT_LABEL[job_type]}+{WT_LABEL[workplace_type]}"`
(total via a default; every shard the generator emits is in the label
dicts, so the default branch is dead on generated shards). -/
def labelsOf (s : Shard) : String :=
  (EXP_LABEL.lookup s.1).getD "?" ++ "+" ++ (JT_LABEL.lookup s.2.1).getD "?" ++ "+" ++
    (WT_LABEL.lookup s.2.2).getD "?"

/-- The transport/detail oracles of one authenticated session.
`setup_session()` returns such a bundle, or `None` on failure. -/
structure SessionOracle where
  pages : Shard → Nat → Except String (List String)
  details : String → Option Job

/-- Requests through a `None` session raise `AttributeError` before any
response arrives; the exception is caught inside `get_jobs_api`, so every
page request on a failed session is an `.error`. -/
def sessionPages : Option SessionOracle → Shard → Nat → Except String (List String)
  | none => fun _ _ => Except.error "AttributeError: NoneType has no attribute get"
  | some o => o.pages

/-- Detail oracle of a possibly-failed session (unreachable when no ids
were gathered, but total). -/
def sessionDetails : Option SessionOracle → String → Option Job
  | none => fun _ => none
  | some o => o.details

/-- The full mutable state of `scrape_all_shards_api_only`, plus two
observable traces: `saves` records each `save_progress` call as
`(shard_num, completed_shards count persisted)`, and `scraped` records the
shard keys actually scraped (not skipped), in order. -/
structure OrchState where
  all_jobs : List Job
  seen_job_ids : List String
  shard_mappings : List (String × List MappingEntry)
  shard_results : List (String × ShardResultRow)
  completed_shards : List String
  limiter : AdaptiveRateLimiter
  shard_num : Nat
  saves : List (Nat × Nat)
  scraped : List String
  deriving DecidableEq, Repr

/-- `if max_shards and shard_num > max_shards: break` — note Python
truthiness: `max_shards = 0` is falsy and disables the cap. -/
def capHit : Option Nat → Nat → Bool
  | none, _ => false
  | some m, n => m != 0 && n > m

/-- The body of one non-skipped iteration of the shard loop in
`scrape_all_shards_api_only` (shard number `n`): scrape the shard through
the API-only extractor, feed the outcome to the rate limiter (success with
the elapsed time if any job came back, error otherwise), write the
`shard_results` row, run the per-record merge loop, add the shard to the
completed set, and call `save_progress` when `n % 10 == 0`.  The trailing
`time.sleep(get_delay / get_break_delay)` consumes randomness but mutates
no state. -/
def processShard (session : Option SessionOracle) (search : String → Bool)
    (rtime : Nat → ℚ) (st : OrchState) (s : Shard) (n : Nat) : OrchState :=
  let key := shardKeyOf s
  let labels := labelsOf s
  let jobs := scrape_shard_api_only (sessionPages session s) (sessionDetails session) search
  let limiter :=
    if jobs.isEmpty then st.limiter.record_error
    else st.limiter.record_success (some (rtime n))
  let results := alistInsert st.shard_results key
    { exp_level := s.1, job_type := s.2.1, workplace_type := s.2.2,
      job_count := jobs.length, labels := labels }
  let m := mergeShard key n s.1 s.2.1 s.2.2 labels
    { all_jobs := st.all_jobs, seen_job_ids := st.seen_job_ids,
      shard_mappings := st.shard_mappings } jobs
  let completed :=
    if key ∈ st.completed_shards then st.completed_shards
    else st.completed_shards ++ [key]
  let saves :=
    if n % 10 = 0 then st.saves ++ [(n, completed.length)] else st.saves
  { all_jobs := m.all_jobs, seen_job_ids := m.seen_job_ids,
    shard_mappings := m.shard_mappings, shard_results := results,
    completed_shards := completed, limiter := limiter, shard_num := n,
    saves := saves, scraped := st.scraped ++ [key] }

/-- The `for exp_level, job_type, workplace_type in shard_combinations:`
loop: increment `shard_num`, `break` once the cap is exceeded, `continue`
past already-completed shards, otherwise run the shard body.  After the
loop the function returns — there is no further `save_progress` call. -/
def runLoop (session : Option SessionOracle) (search : String → Bool)
    (rtime : Nat → ℚ) (maxShards : Option Nat) :
    List Shard → OrchState → OrchState
  | [], st => st
  | s :: rest, st =>
      let n := st.shard_num + 1
      if capHit maxShards n then { st with shard_num := n }
      else if shardKeyOf s ∈ st.completed_shards then
        runLoop session search rtime maxShards rest { st with shard_num := n }
      else
        runLoop session search rtime maxShards rest
          (processShard session search rtime { st with shard_num := n } s n)

/-- `scrape_all_shards_api_only(keywords, max_shards, resume, ...)`.
`init*` is the state loaded by `load_progress()` when resuming (all empty
on a fresh run); `seen_job_ids` is rebuilt from the loaded jobs exactly as
in the source.  `load_shard_priorities()` returns `None` in the source, so
the generator runs in default order.  Note the session is used as returned
by `setup_session()` — a `None` session is not checked for. -/
def scrape_all_shards_api_only (session : Option SessionOracle)
    (search : String → Bool) (rtime : Nat → ℚ) (maxShards : Option Nat)
    (initJobs : List Job) (initResults : List (String × ShardResultRow))
    (initMappings : List (String × List MappingEntry))
    (initCompleted : List String) : OrchState :=
  runLoop session search rtime maxShards (generate_prioritized_shards none)
    { all_jobs := initJobs,
      seen_job_ids := initJobs.map (fun j => j.job_id),
      shard_mappings := initMappings,
      shard_results := initResults,
      completed_shards := initCompleted,
      limiter := limiterInit,
      shard_num := 0, saves := [], scraped := [] }

/-- The `save_progress` cadence of a skip-free, cap-free run of `k` shards
starting at iteration `n` with `c` shards already completed: a save fires
at every iteration index divisible by 10, persisting the completed count at
that point. -/
def savesFor (n c : Nat) : Nat → List (Nat × Nat)
  | 0 => []
  | k + 1 =>
      (if (n + 1) % 10 = 0 then [(n + 1, c + 1)] else []) ++ savesFor (n + 1) (c + 1) k

/-- Number of records in a list carrying a given identity key
(`job_id`). -/
def countId (id : String) (jobs : List Job) : Nat :=
  jobs.countP (fun j => j.job_id == id)

/-- Coherence of the dedup set with the canonical list: `seen_job_ids` is
exactly the identity keys of `all_jobs` (holds from the fresh initial state
and from the `seen_job_ids = {job['job_id'] for job in all_jobs}` rebuild
on resume, up to set membership). -/
def seenInv (st : MergeState) : Prop :=
  st.seen_job_ids = st.all_jobs.map (fun j => j.job_id)

/-- A concrete record used by evaluation witnesses. -/
def sampleJob : Job :=
  { job_id := "42", title := "t", company_name := "c", posted_dt := none,
    is_repost := false, url := "u", source := "api" }

/-- Request counter of the pagination loop: how many page requests
`getJobsApiGo` issues from page `page` with `fuel` pages of budget left,
over an error-free page oracle.  Mirrors the loop's branch structure:
an empty page, a short page or an over-full page is the last request; only
a page of exactly `count` identifiers advances. -/
def pageRequests (pages : Nat → List String) (count : Nat) : Nat → Nat → Nat
  | 0, _ => 0
  | fuel + 1, page =>
      if (pages page).isEmpty then 1
      else if (pages page).length < count then 1
      else if (pages page).length = count then
        1 + pageRequests pages count fuel (page + 1)
      else 1

theorem record_success_current_delay (l : AdaptiveRateLimiter) (rt : Option ℚ) :
    (l.record_success rt).current_delay =
      if (l.success_count + 1) % 3 = 0 then
        max l.min_delay (l.current_delay * (9/10))
      else l.current_delay := by
  simp only [AdaptiveRateLimiter.record_success]
  split <;> rfl

theorem record_success_success_count (l : AdaptiveRateLimiter) (rt : Option ℚ) :
    (l.record_success rt).success_count = l.success_count + 1 := by
  simp only [AdaptiveRateLimiter.record_success]
  split <;> rfl

theorem record_success_min_delay (l : AdaptiveRateLimiter) (rt : Option ℚ) :
    (l.record_success rt).min_delay = l.min_delay := by
  simp only [AdaptiveRateLimiter.record_success]
  split <;> rfl

theorem record_success_max_delay (l : AdaptiveRateLimiter) (rt : Option ℚ) :
    (l.record_success rt).max_delay = l.max_delay := by
  simp only [AdaptiveRateLimiter.record_success]
  split <;> rfl

/-- Invariant of reachable limiter states: the bounds are the module
defaults and `current_delay` stays inside `[min_delay, max_delay]`. -/
theorem limiter_invariant (l : AdaptiveRateLimiter) (h : LimiterReachable l) :
    l.min_delay = 3/10 ∧ l.max_delay = 5 ∧
      3/10 ≤ l.current_delay ∧ l.current_delay ≤ 5 := by
  induction h with
  | init =>
      refine ⟨rfl, rfl, by norm_num [limiterInit, mkLimiter], by norm_num [limiterInit, mkLimiter]⟩
  | succ l rt _ ih =>
      obtain ⟨hmin, hmax, hlo, hhi⟩ := ih
      refine ⟨by rw [record_success_min_delay, hmin],
              by rw [record_success_max_delay, hmax], ?_, ?_⟩
      · rw [record_success_current_delay]
        split
        · rw [hmin]; exact le_max_left _ _
        · exact hlo
      · rw [record_success_current_delay]
        split
        · refine max_le ?_ ?_
          · rw [hmin]; norm_num
          · nlinarith
        · exact hhi
  | err l _ ih =>
      obtain ⟨hmin, hmax, hlo, hhi⟩ := ih
      refine ⟨hmin, hmax, ?_, ?_⟩
      · simp only [AdaptiveRateLimiter.record_error]
        refine le_min ?_ ?_
        · rw [hmax]; norm_num
        · nlinarith
      · simp only [AdaptiveRateLimiter.record_error]
        rw [hmax]
        exact min_le_left _ _

theorem record_success_delay_noop (l : AdaptiveRateLimiter) (rt : Option ℚ)
    (h : (l.success_count + 1) % 3 ≠ 0) :
    (l.record_success rt).current_delay = l.current_delay := by
  rw [record_success_current_delay, if_neg h]

theorem record_success_delay_step (l : AdaptiveRateLimiter) (rt : Option ℚ)
    (h : (l.success_count + 1) % 3 = 0) :
    (l.record_success rt).current_delay = max l.min_delay (l.current_delay * (9/10)) := by
  rw [record_success_current_delay, if_pos h]

/-- C1 (counterexample): The claim says fewer than 3 consecutive
successes never decrease `currentDelay` and that the 0.9 ramp-down fires
exactly on the 3rd success of a run of consecutive successes uninterrupted
by errors.  But `record_error` never resets `success_count`: after the
event sequence success, success, error — so the current run of consecutive
successes has length 0 — a single further `record_success` brings the
total counter to 3 and strictly decreases `current_delay` (from 3/2 to
27/20). -/
theorem C1_counterexample :
    (((limiterInit.record_success none).record_success none).record_error.record_success
        none).current_delay <
      ((limiterInit.record_success none).record_success none).record_error.current_delay := by
  have hcount : ((limiterInit.record_success none).record_success none).success_count = 2 := by
    rw [record_success_success_count, record_success_success_count]
    rfl
  have hdelay : ((limiterInit.record_success none).record_success none).current_delay = 1 := by
    rw [record_success_delay_noop _ none (by rw [record_success_success_count]; decide),
      record_success_delay_noop _ none (by decide)]
    rfl
  have hmax2 : ((limiterInit.record_success none).record_success none).max_delay = 5 := by
    rw [record_success_max_delay, record_success_max_delay]
    rfl
  have htdelay :
      ((limiterInit.record_success none).record_success none).record_error.current_delay
        = 3/2 := by
    simp only [AdaptiveRateLimiter.record_error]
    rw [hmax2, hdelay]
    norm_num
  have htmin :
      ((limiterInit.record_success none).record_success none).record_error.min_delay
        = 3/10 := by
    show ((limiterInit.record_success none).record_success none).min_delay = 3/10
    rw [record_success_min_delay, record_success_min_delay]
    rfl
  have hfinal :
      (((limiterInit.record_success none).record_success none).record_error.record_success
          none).current_delay = max (3/10 : ℚ) ((3/2 : ℚ) * (9/10)) := by
    rw [record_success_delay_step _ none
      (by show (((limiterInit.record_success none).record_success none).success_count + 1) % 3 = 0
          rw [hcount])]
    rw [htmin, htdelay]
  rw [hfinal, htdelay]
  rw [show (3/2 : ℚ) * (9/10) = 27/20 by norm_num, max_eq_right (by norm_num : (3/10:ℚ) ≤ 27/20)]
  norm_num

/-- C1 (amended): For every reachable limiter state: a `record_success`
event multiplies `currentDelay` by 0.9 (floored at `minDelay`) exactly when
the incremented total success counter — which `record_error` does not
reset — is divisible by 3.  Any 3 consecutive successes apply the 0.9
factor exactly once, so after them
`currentDelay = max minDelay (0.9 * old)`: a strict decrease unless the
delay was already at `minDelay`, in which case it is unchanged. -/
theorem C1_ramp_down_amended (l : AdaptiveRateLimiter) (h : LimiterReachable l)
    (rt1 rt2 rt3 : Option ℚ) :
    ((l.record_success rt1).current_delay =
      if (l.success_count + 1) % 3 = 0 then max l.min_delay (l.current_delay * (9/10))
      else l.current_delay) ∧
    (((l.record_success rt1).record_success rt2).record_success rt3).current_delay =
      max l.min_delay (l.current_delay * (9/10)) ∧
    (l.min_delay < l.current_delay →
      (((l.record_success rt1).record_success rt2).record_success rt3).current_delay <
        l.current_delay) ∧
    (l.current_delay = l.min_delay →
      (((l.record_success rt1).record_success rt2).record_success rt3).current_delay =
        l.current_delay) := by
  obtain ⟨hmin, hmax, hlo, hhi⟩ := limiter_invariant l h
  have hc1 : (l.record_success rt1).success_count = l.success_count + 1 :=
    record_success_success_count l rt1
  have hc2 : ((l.record_success rt1).record_success rt2).success_count =
      l.success_count + 2 := by
    rw [record_success_success_count, hc1]
  have hm1 : (l.record_success rt1).min_delay = l.min_delay :=
    record_success_min_delay l rt1
  have hm2 : ((l.record_success rt1).record_success rt2).min_delay = l.min_delay := by
    rw [record_success_min_delay, hm1]
  have key : (((l.record_success rt1).record_success rt2).record_success rt3).current_delay =
      max l.min_delay (l.current_delay * (9/10)) := by
    rcases (show l.success_count % 3 = 0 ∨ l.success_count % 3 = 1 ∨
        l.success_count % 3 = 2 by omega) with h0 | h1 | h2
    · have e1 := record_success_delay_noop l rt1 (by omega)
      have e2 := record_success_delay_noop (l.record_success rt1) rt2 (by rw [hc1]; omega)
      have e3 := record_success_delay_step ((l.record_success rt1).record_success rt2) rt3
        (by rw [hc2]; omega)
      rw [e3, hm2, e2, e1]
    · have e1 := record_success_delay_noop l rt1 (by omega)
      have e2 := record_success_delay_step (l.record_success rt1) rt2 (by rw [hc1]; omega)
      have e3 := record_success_delay_noop ((l.record_success rt1).record_success rt2) rt3
        (by rw [hc2]; omega)
      rw [e3, e2, hm1, e1]
    · have e1 := record_success_delay_step l rt1 (by omega)
      have e2 := record_success_delay_noop (l.record_success rt1) rt2 (by rw [hc1]; omega)
      have e3 := record_success_delay_noop ((l.record_success rt1).record_success rt2) rt3
        (by rw [hc2]; omega)
      rw [e3, e2, e1]
  refine ⟨record_success_current_delay l rt1, key, ?_, ?_⟩
  · intro hlt
    rw [key]
    have hminpos : (0:ℚ) < l.min_delay := by rw [hmin]; norm_num
    have hc0 : (0:ℚ) < l.current_delay := hminpos.trans hlt
    exact max_lt hlt (by nlinarith)
  · intro heq
    rw [key, heq]
    exact max_eq_left (by rw [hmin]; norm_num)

/-- C1 (amended, witness): At the freshly constructed limiter (a
reachable state) with three successes: the first success leaves the delay
at 1 and the third brings it to 9/10. -/
theorem C1_ramp_down_amended_witness :
    (limiterInit.record_success none).current_delay = 1 ∧
    (((limiterInit.record_success none).record_success none).record_success
        none).current_delay = 9/10 := by
  have h := C1_ramp_down_amended limiterInit LimiterReachable.init none none none
  constructor
  · rw [h.1]
    norm_num [limiterInit, mkLimiter]
  · rw [h.2.1]
    show max (3/10 : ℚ) ((1:ℚ) * (9/10)) = 9/10
    rw [show (1:ℚ) * (9/10) = 9/10 by norm_num]
    exact max_eq_right (by norm_num)

/-- C8: For every reachable limiter state: `record_error` sets
`current_delay` to `min(max_delay, current_delay * 1.5)` — a strict
increase unless the delay is already at `max_delay`, where it is
unchanged — and the jittered delays are always inside their advertised
bands: `get_delay ∈ [0.8, 1.2] * current_delay` and
`get_break_delay ∈ [1.2, 1.5] * current_delay`, for every random sample
`r ∈ [0, 1]`. -/
theorem C8_backoff_and_jitter (l : AdaptiveRateLimiter) (h : LimiterReachable l)
    (r : ℚ) (hr0 : 0 ≤ r) (hr1 : r ≤ 1) :
    l.record_error.current_delay = min l.max_delay (l.current_delay * (3/2)) ∧
    (l.current_delay < l.max_delay → l.current_delay < l.record_error.current_delay) ∧
    (l.current_delay = l.max_delay → l.record_error.current_delay = l.current_delay) ∧
    l.current_delay * (4/5) ≤ l.get_delay r ∧
    l.get_delay r ≤ l.current_delay * (6/5) ∧
    l.current_delay * (6/5) ≤ l.get_break_delay r ∧
    l.get_break_delay r ≤ l.current_delay * (3/2) := by
  obtain ⟨hmin, hmax, hlo, hhi⟩ := limiter_invariant l h
  have hc0 : (0:ℚ) < l.current_delay := lt_of_lt_of_le (by norm_num) hlo
  refine ⟨rfl, ?_, ?_, ?_, ?_, ?_, ?_⟩
  · intro hlt
    show l.current_delay < min l.max_delay (l.current_delay * (3/2))
    exact lt_min hlt (by nlinarith)
  · intro heq
    show min l.max_delay (l.current_delay * (3/2)) = l.current_delay
    rw [← heq]
    exact min_eq_left (by nlinarith)
  · show l.current_delay * (4/5) ≤
      l.current_delay * (4/5) + (l.current_delay * (6/5) - l.current_delay * (4/5)) * r
    nlinarith
  · show l.current_delay * (4/5) + (l.current_delay * (6/5) - l.current_delay * (4/5)) * r ≤
      l.current_delay * (6/5)
    nlinarith
  · show l.current_delay * (6/5) ≤
      l.current_delay * (6/5) + (l.current_delay * (3/2) - l.current_delay * (6/5)) * r
    nlinarith
  · show l.current_delay * (6/5) + (l.current_delay * (3/2) - l.current_delay * (6/5)) * r ≤
      l.current_delay * (3/2)
    nlinarith

/-- C8 (witness): The theorem applied at the freshly constructed
limiter with the random sample `r = 0`: one error takes the delay from 1 to
3/2, and the jitter at `r = 0` sits at the lower band edges. -/
theorem C8_backoff_and_jitter_witness :
    limiterInit.record_error.current_delay = 3/2 ∧
    limiterInit.get_delay 0 = 4/5 ∧
    limiterInit.get_break_delay 0 = 6/5 := by
  have h := C8_backoff_and_jitter limiterInit LimiterReachable.init 0 (le_refl 0) (by norm_num)
  refine ⟨?_, ?_, ?_⟩
  · rw [h.1]
    show min (5:ℚ) ((1:ℚ) * (3/2)) = 3/2
    rw [show (1:ℚ) * (3/2) = 3/2 by norm_num]
    exact min_eq_right (by norm_num)
  · have h1 := h.2.2.2.1
    have h2 := h.2.2.2.2.1
    have he : limiterInit.current_delay * (4/5) = limiterInit.get_delay 0 := by
      show _ = limiterInit.current_delay * (4/5) +
        (limiterInit.current_delay * (6/5) - limiterInit.current_delay * (4/5)) * 0
      ring
    rw [← he]
    norm_num [limiterInit, mkLimiter]
  · have he : limiterInit.current_delay * (6/5) = limiterInit.get_break_delay 0 := by
      show _ = limiterInit.current_delay * (6/5) +
        (limiterInit.current_delay * (3/2) - limiterInit.current_delay * (6/5)) * 0
      ring
    rw [← he]
    norm_num [limiterInit, mkLimiter]

/-- C10: `is_blacklisted` returns `False` whenever the company name is
`None`, the empty string, or the placeholder `'N/A'` — regardless of the
denylist pattern — so a record whose company name could not be extracted is
never discarded by the denylist filter. -/
theorem C10_blacklist_unextracted_safe (search : String → Bool) :
    is_blacklisted search none = false ∧
    is_blacklisted search (some "") = false ∧
    is_blacklisted search (some "N/A") = false := by
  refine ⟨rfl, ?_, ?_⟩ <;> simp [is_blacklisted]

/-- C7: With the facet lists of sizes 6 (experience), 7 (job type) and
3 (workplace type), the default-ordered generator produces exactly
6*7*3 = 126 pairwise-distinct shard tuples, enumerated in nested iteration
order with experience outermost and workplace type innermost: the shard of
rank `i` is `(EXP_CODES[i / 21], JT_CODES[i / 3 % 7], WT_CODES[i % 3])`.
The generator is a pure function of its input, so the sequence is identical
across invocations. -/
theorem C7_facet_cross_product :
    (generate_prioritized_shards none).length = 126 ∧
    (generate_prioritized_shards none).Nodup ∧
    (∀ i : Nat, i < 126 →
      (generate_prioritized_shards none).getD i ("", "", "") =
        (EXP_CODES.getD (i / 21) "", JT_CODES.getD (i / 3 % 7) "", WT_CODES.getD (i % 3) "")) ∧
    generate_prioritized_shards none = generate_prioritized_shards none := by
  refine ⟨by decide, by decide, by decide, rfl⟩

/-- C7 (witness): The theorem applied at rank 25: the 26th shard under
default ordering is `("2", "F", "1")` (entry + full_time + on_site). -/
theorem C7_facet_cross_product_witness :
    (generate_prioritized_shards none).getD 25 ("", "", "") = ("2", "F", "1") := by
  have h := C7_facet_cross_product.2.2.1 25 (by norm_num)
  exact h.trans (by decide)

/-- C2 (counterexample): The claim says a shard whose primary listing
call returns zero identifiers on the first page is declared empty *without
invoking the fallback path*.  But `scrape_shard_optimized` cannot
distinguish an empty primary result from a failed one: with a page oracle
that returns a successful, zero-identifier first page, the rendered-page
fallback IS invoked (second component `true`). -/
theorem C2_counterexample :
    (scrape_shard_optimized (fun _ => Except.ok ([] : List String)) (fun _ => none)
        (fun _ => false) []).2 = true := by
  rfl

theorem get_jobs_dom_smart_repost_false (search : String → Bool) (cards : List Card) :
    ∀ job ∈ get_jobs_dom_smart search cards, job.is_repost = false := by
  intro job hj
  unfold get_jobs_dom_smart at hj
  split at hj
  · simp at hj
  · obtain ⟨c, _, hc⟩ := List.mem_filterMap.mp hj
    rcases hjid : c.job_id with _ | jid
    · rw [hjid] at hc
      simp at hc
    · rw [hjid] at hc
      simp only at hc
      split at hc
      · simp at hc
      · rw [Option.some_inj] at hc
        rw [← hc]

/-- C2 (amended): In `scrape_shard_optimized` the fallback
rendered-page path is invoked exactly when the primary API path yields zero
records — whether because the first page had zero identifiers, because a
transport/parse error occurred, or because every record was filtered; the
two causes are indistinguishable to the caller.  Every record the fallback
path produces has the repost flag set to `false`, so whenever the fallback
ran, every returned record has `is_repost = false`.  The API-only variant
`scrape_shard_api_only` returns the primary result unconditionally and has
no fallback. -/
theorem C2_fallback_amended (pages : Nat → Except String (List String))
    (details : String → Option Job) (search : String → Bool) (cards : List Card) :
    ((scrape_shard_optimized pages details search cards).2 = true ↔
      (get_jobs_api pages details search 100).1 = []) ∧
    (∀ job ∈ get_jobs_dom_smart search cards, job.is_repost = false) ∧
    ((scrape_shard_optimized pages details search cards).2 = true →
      ∀ job ∈ (scrape_shard_optimized pages details search cards).1, job.is_repost = false) ∧
    scrape_shard_api_only pages details search = (get_jobs_api pages details search 100).1 := by
  refine ⟨?_, get_jobs_dom_smart_repost_false search cards, ?_, ?_⟩
  · unfold scrape_shard_optimized
    rcases he : (get_jobs_api pages details search 100).1.isEmpty with _ | _
    · simp only [he, Bool.false_eq_true, if_false]
      constructor
      · intro hfalse
        exact absurd hfalse (by simp)
      · intro hnil
        rw [hnil] at he
        simp at he
    · simp only [he, if_true]
      simp only [true_iff]
      exact List.isEmpty_iff.mp he
  · intro hfb
    have he : (get_jobs_api pages details search 100).1.isEmpty = true := by
      rcases he : (get_jobs_api pages details search 100).1.isEmpty with _ | _
      · exfalso
        revert hfb
        unfold scrape_shard_optimized
        simp [he]
      · rfl
    unfold scrape_shard_optimized
    simp only [he, if_true]
    exact get_jobs_dom_smart_repost_false search cards
  · unfold scrape_shard_api_only
    rcases he : (get_jobs_api pages details search 100).1.isEmpty with _ | _
    · simp [he]
    · simp only [he, if_true]
      exact (List.isEmpty_iff.mp he).symm

theorem lookup_alistInsert_self {α : Type} (m : List (String × α)) (k : String) (v : α) :
    (alistInsert m k v).lookup k = some v := by
  induction m with
  | nil => simp [alistInsert, List.lookup]
  | cons kv rest ih =>
      obtain ⟨k', v'⟩ := kv
      by_cases hk : k' = k
      · simp [alistInsert, hk, List.lookup]
      · simp only [alistInsert, if_neg hk, List.lookup]
        rw [show (k == k') = false from beq_false_of_ne (fun he => hk he.symm)]
        exact ih

theorem lookup_alistInsert_other {α : Type} (m : List (String × α)) (k k' : String) (v : α)
    (h : k' ≠ k) : (alistInsert m k v).lookup k' = m.lookup k' := by
  induction m with
  | nil => simp [alistInsert, List.lookup, beq_false_of_ne h]
  | cons kv rest ih =>
      obtain ⟨k0, v0⟩ := kv
      by_cases hk : k0 = k
      · subst hk
        simp only [alistInsert, if_pos rfl, List.lookup]
        rw [show (k' == k0) = false from beq_false_of_ne h]
      · simp only [alistInsert, if_neg hk, List.lookup]
        rcases hbeq : k' == k0 with _ | _
        · simp only [hbeq]
          exact ih
        · simp only [hbeq]

theorem lookup_append_single {α : Type} (m : List (String × α)) (k : String) (v : α)
    (h : m.lookup k = none) : (m ++ [(k, v)]).lookup k = some v := by
  induction m with
  | nil => simp [List.lookup]
  | cons kv rest ih =>
      obtain ⟨k0, v0⟩ := kv
      simp only [List.cons_append, List.lookup] at h ⊢
      rcases hbeq : k == k0 with _ | _
      · rw [hbeq] at h
        exact ih h
      · rw [hbeq] at h
        simp at h

theorem lookup_append_single_other {α : Type} (m : List (String × α)) (k k' : String)
    (v : α) (h : k' ≠ k) : (m ++ [(k, v)]).lookup k' = m.lookup k' := by
  induction m with
  | nil => simp [List.lookup, beq_false_of_ne h]
  | cons kv rest ih =>
      obtain ⟨k0, v0⟩ := kv
      simp only [List.cons_append, List.lookup]
      rcases hbeq : k' == k0 with _ | _
      · exact ih
      · rfl

theorem mappingsAppend_lookup_self (m : List (String × List MappingEntry)) (id : String)
    (e : MappingEntry) :
    ((mappingsAppend m id e).lookup id).getD [] = (m.lookup id).getD [] ++ [e] := by
  unfold mappingsAppend
  rcases hm : m.lookup id with _ | l
  · rw [lookup_append_single m id [e] hm]
    rfl
  · rw [lookup_alistInsert_self]
    rfl

theorem mappingsAppend_lookup_other (m : List (String × List MappingEntry)) (id id' : String)
    (e : MappingEntry) (h : id' ≠ id) :
    (mappingsAppend m id e).lookup id' = m.lookup id' := by
  unfold mappingsAppend
  rcases hm : m.lookup id with _ | l
  · exact lookup_append_single_other m id id' [e] h
  · exact lookup_alistInsert_other m id id' (l ++ [e]) h

theorem tagJob_job_id (shardKey e j w labels : String) (job : Job) :
    (tagJob shardKey e j w labels job).job_id = job.job_id := rfl

theorem mergeJob_shard_mappings (shardKey : String) (shardNum : Nat)
    (e j w labels : String) (st : MergeState) (job : Job) :
    (mergeJob shardKey shardNum e j w labels st job).shard_mappings =
      mappingsAppend st.shard_mappings job.job_id
        { shard_key := shardKey, shard_num := shardNum, labels := labels } := by
  simp only [mergeJob, tagJob_job_id]
  split <;> rfl

/-- C9: Merging a record whose identity key is already in the dedup set
changes only the provenance map entry for that key (the shard's entry is
appended): the canonical record list — hence every field of the stored
record — and the dedup set are unchanged, and every other identity key's
provenance is unchanged. -/
theorem C9_duplicate_merge_frame (shardKey : String) (shardNum : Nat)
    (e j w labels : String) (st : MergeState) (job : Job)
    (h : job.job_id ∈ st.seen_job_ids) :
    (mergeJob shardKey shardNum e j w labels st job).all_jobs = st.all_jobs ∧
    (mergeJob shardKey shardNum e j w labels st job).seen_job_ids = st.seen_job_ids ∧
    (∀ id, id ≠ job.job_id →
      (mergeJob shardKey shardNum e j w labels st job).shard_mappings.lookup id =
        st.shard_mappings.lookup id) ∧
    ((mergeJob shardKey shardNum e j w labels st job).shard_mappings.lookup
        job.job_id).getD [] =
      (st.shard_mappings.lookup job.job_id).getD [] ++
        [{ shard_key := shardKey, shard_num := shardNum, labels := labels }] := by
  refine ⟨?_, ?_, ?_, ?_⟩
  · simp only [mergeJob, tagJob_job_id]
    rw [if_pos h]
  · simp only [mergeJob, tagJob_job_id]
    rw [if_pos h]
  · intro id hid
    rw [mergeJob_shard_mappings]
    exact mappingsAppend_lookup_other _ _ _ _ hid
  · rw [mergeJob_shard_mappings]
    exact mappingsAppend_lookup_self _ _ _

/-- C9 (witness): The theorem applied at a concrete state whose dedup
set already contains the incoming record's key "42": only the provenance
entry for "42" changes. -/
theorem C9_duplicate_merge_frame_witness :
    (mergeJob "1_F_2" 7 "1" "F" "2" "lbl"
        { all_jobs := [sampleJob], seen_job_ids := ["42"], shard_mappings := [] }
        sampleJob).all_jobs = [sampleJob] ∧
    ((mergeJob "1_F_2" 7 "1" "F" "2" "lbl"
        { all_jobs := [sampleJob], seen_job_ids := ["42"], shard_mappings := [] }
        sampleJob).shard_mappings.lookup "42").getD [] =
      [{ shard_key := "1_F_2", shard_num := 7, labels := "lbl" }] := by
  have h := C9_duplicate_merge_frame "1_F_2" 7 "1" "F" "2" "lbl"
    { all_jobs := [sampleJob], seen_job_ids := ["42"], shard_mappings := [] }
    sampleJob (by simp [sampleJob])
  exact ⟨h.1, h.2.2.2.trans (by simp [List.lookup])⟩

theorem mergeShard_cons (k : String) (n : Nat) (e j w labels : String)
    (st : MergeState) (job : Job) (rest : List Job) :
    mergeShard k n e j w labels st (job :: rest) =
      mergeShard k n e j w labels (mergeJob k n e j w labels st job) rest := rfl

theorem mergeJob_seen (k : String) (n : Nat) (e j w labels : String)
    (st : MergeState) (job : Job) :
    (mergeJob k n e j w labels st job).seen_job_ids =
      if job.job_id ∈ st.seen_job_ids then st.seen_job_ids
      else st.seen_job_ids ++ [job.job_id] := by
  by_cases hm : job.job_id ∈ st.seen_job_ids
  · simp only [mergeJob, tagJob_job_id, if_pos hm]
  · simp only [mergeJob, tagJob_job_id, if_neg hm]

theorem mergeJob_all_jobs (k : String) (n : Nat) (e j w labels : String)
    (st : MergeState) (job : Job) :
    (mergeJob k n e j w labels st job).all_jobs =
      if job.job_id ∈ st.seen_job_ids then st.all_jobs
      else st.all_jobs ++ [tagJob k e j w labels job] := by
  by_cases hm : job.job_id ∈ st.seen_job_ids
  · simp only [mergeJob, tagJob_job_id, if_pos hm]
  · simp only [mergeJob, tagJob_job_id, if_neg hm]

theorem mergeJob_seenInv (k : String) (n : Nat) (e j w labels : String)
    (st : MergeState) (job : Job) (h : seenInv st) :
    seenInv (mergeJob k n e j w labels st job) := by
  unfold seenInv at h ⊢
  by_cases hm : job.job_id ∈ st.seen_job_ids
  · rw [mergeJob_seen, if_pos hm, mergeJob_all_jobs, if_pos hm, h]
  · rw [mergeJob_seen, if_neg hm, mergeJob_all_jobs, if_neg hm]
    simp [h, tagJob_job_id]

theorem mergeShard_seenInv (k : String) (n : Nat) (e j w labels : String) :
    ∀ (jobs : List Job) (st : MergeState), seenInv st →
      seenInv (mergeShard k n e j w labels st jobs) := by
  intro jobs
  induction jobs with
  | nil => intro st h; exact h
  | cons job rest ih =>
      intro st h
      rw [mergeShard_cons]
      exact ih _ (mergeJob_seenInv k n e j w labels st job h)

theorem mergeJob_seen_nodup (k : String) (n : Nat) (e j w labels : String)
    (st : MergeState) (job : Job) (h : st.seen_job_ids.Nodup) :
    (mergeJob k n e j w labels st job).seen_job_ids.Nodup := by
  by_cases hm : job.job_id ∈ st.seen_job_ids
  · rw [mergeJob_seen, if_pos hm]
    exact h
  · rw [mergeJob_seen, if_neg hm]
    refine List.nodup_append.mpr ⟨h, List.nodup_singleton _, ?_⟩
    intro x hx hy
    simp only [List.mem_singleton] at hy
    subst hy
    exact hm hx

theorem mergeShard_seen_nodup (k : String) (n : Nat) (e j w labels : String) :
    ∀ (jobs : List Job) (st : MergeState), st.seen_job_ids.Nodup →
      (mergeShard k n e j w labels st jobs).seen_job_ids.Nodup := by
  intro jobs
  induction jobs with
  | nil => intro st h; exact h
  | cons job rest ih =>
      intro st h
      rw [mergeShard_cons]
      exact ih _ (mergeJob_seen_nodup k n e j w labels st job h)

theorem mergeJob_seen_mem (k : String) (n : Nat) (e j w labels : String)
    (st : MergeState) (job : Job) (id : String) :
    id ∈ (mergeJob k n e j w labels st job).seen_job_ids ↔
      id ∈ st.seen_job_ids ∨ job.job_id = id := by
  by_cases hm : job.job_id ∈ st.seen_job_ids
  · rw [mergeJob_seen, if_pos hm]
    constructor
    · exact Or.inl
    · rintro (h | h)
      · exact h
      · exact h ▸ hm
  · rw [mergeJob_seen, if_neg hm]
    simp [List.mem_append, eq_comm]

theorem mergeShard_seen_mem (k : String) (n : Nat) (e j w labels : String) (id : String) :
    ∀ (jobs : List Job) (st : MergeState),
      (id ∈ (mergeShard k n e j w labels st jobs).seen_job_ids ↔
        id ∈ st.seen_job_ids ∨ countId id jobs ≠ 0) := by
  intro jobs
  induction jobs with
  | nil => intro st; simp [mergeShard, countId]
  | cons job rest ih =>
      intro st
      rw [mergeShard_cons, ih]
      rw [mergeJob_seen_mem]
      have hcnt : countId id (job :: rest) ≠ 0 ↔ job.job_id = id ∨ countId id rest ≠ 0 := by
        simp only [countId, List.countP_cons]
        by_cases hid : job.job_id = id
        · simp [hid]
        · simp [hid, beq_false_of_ne hid]
      rw [hcnt]
      tauto

theorem countId_eq_count_map (id : String) (l : List Job) :
    countId id l = (l.map (fun j => j.job_id)).count id := by
  induction l with
  | nil => rfl
  | cons job rest ih =>
      simp only [countId, List.countP_cons, List.map_cons, List.count_cons] at ih ⊢
      rw [ih]

theorem mergeShard_mappings_getD (k : String) (n : Nat) (e j w labels id : String) :
    ∀ (jobs : List Job) (st : MergeState),
      ((mergeShard k n e j w labels st jobs).shard_mappings.lookup id).getD [] =
        (st.shard_mappings.lookup id).getD [] ++
          List.replicate (countId id jobs)
            { shard_key := k, shard_num := n, labels := labels } := by
  intro jobs
  induction jobs with
  | nil => intro st; simp [mergeShard, countId]
  | cons job rest ih =>
      intro st
      rw [mergeShard_cons, ih]
      by_cases hid : job.job_id = id
      · have hm : ((mergeJob k n e j w labels st job).shard_mappings.lookup id).getD [] =
            (st.shard_mappings.lookup id).getD [] ++
              [{ shard_key := k, shard_num := n, labels := labels }] := by
          rw [mergeJob_shard_mappings, hid]
          exact mappingsAppend_lookup_self _ _ _
        rw [hm]
        have hcnt : countId id (job :: rest) = countId id rest + 1 := by
          simp [countId, List.countP_cons, hid]
        rw [hcnt, List.replicate_succ]
        simp
      · have hm : (mergeJob k n e j w labels st job).shard_mappings.lookup id =
            st.shard_mappings.lookup id := by
          rw [mergeJob_shard_mappings]
          exact mappingsAppend_lookup_other _ _ _ _ (fun he => hid he.symm)
        rw [hm]
        have hcnt : countId id (job :: rest) = countId id rest := by
          simp [countId, List.countP_cons, hid, beq_false_of_ne hid]
        rw [hcnt]

/-- C6: Merging two shards whose outputs each contain exactly one
record with identity key `id` — starting from a fresh harvest state —
leaves exactly one stored record with that key in the canonical list, and
the provenance map for that key holds exactly one entry per contributing
shard: `[kA, kB]`, never two stored copies. -/
theorem C6_dedup_invariant (id kA kB : String) (nA nB : Nat)
    (eA jA wA lA eB jB wB lB : String) (jobsA jobsB : List Job)
    (hk : kA ≠ kB) (hA : countId id jobsA = 1) (hB : countId id jobsB = 1) :
    countId id (mergeShard kB nB eB jB wB lB
        (mergeShard kA nA eA jA wA lA ⟨[], [], []⟩ jobsA) jobsB).all_jobs = 1 ∧
    (((mergeShard kB nB eB jB wB lB (mergeShard kA nA eA jA wA lA ⟨[], [], []⟩ jobsA)
          jobsB).shard_mappings.lookup id).getD []).map (fun en => en.shard_key) =
      [kA, kB] := by
  constructor
  · have hinv : seenInv (mergeShard kB nB eB jB wB lB
        (mergeShard kA nA eA jA wA lA ⟨[], [], []⟩ jobsA) jobsB) :=
      mergeShard_seenInv _ _ _ _ _ _ _ _
        (mergeShard_seenInv _ _ _ _ _ _ _ _ rfl)
    have hnd : (mergeShard kB nB eB jB wB lB
        (mergeShard kA nA eA jA wA lA ⟨[], [], []⟩ jobsA) jobsB).seen_job_ids.Nodup :=
      mergeShard_seen_nodup _ _ _ _ _ _ _ _
        (mergeShard_seen_nodup _ _ _ _ _ _ _ _ List.nodup_nil)
    have hmem : id ∈ (mergeShard kB nB eB jB wB lB
        (mergeShard kA nA eA jA wA lA ⟨[], [], []⟩ jobsA) jobsB).seen_job_ids := by
      rw [mergeShard_seen_mem]
      left
      rw [mergeShard_seen_mem]
      right
      rw [hA]
      exact one_ne_zero
    rw [countId_eq_count_map]
    unfold seenInv at hinv
    rw [← hinv]
    exact List.count_eq_one_of_mem hnd hmem
  · rw [mergeShard_mappings_getD, mergeShard_mappings_getD, hA, hB]
    simp [List.lookup]

/-- C6 (witness): The theorem applied to two concrete one-record
shards both yielding the record with key "42": one stored copy, provenance
`["1_F_2", "2_C_1"]`. -/
theorem C6_dedup_invariant_witness :
    countId "42" (mergeShard "2_C_1" 2 "2" "C" "1" "lB"
        (mergeShard "1_F_2" 1 "1" "F" "2" "lA" ⟨[], [], []⟩ [sampleJob])
        [sampleJob]).all_jobs = 1 ∧
    (((mergeShard "2_C_1" 2 "2" "C" "1" "lB"
          (mergeShard "1_F_2" 1 "1" "F" "2" "lA" ⟨[], [], []⟩ [sampleJob])
          [sampleJob]).shard_mappings.lookup "42").getD []).map
      (fun en => en.shard_key) = ["1_F_2", "2_C_1"] := by
  exact C6_dedup_invariant "42" "1_F_2" "2_C_1" 1 2 "1" "F" "2" "lA" "2" "C" "1" "lB"
    [sampleJob] [sampleJob] (by decide) (by decide) (by decide)

theorem processShard_trace (session : Option SessionOracle) (search : String → Bool)
    (rtime : Nat → ℚ) (st : OrchState) (s : Shard) (n : Nat)
    (hkey : shardKeyOf s ∉ st.completed_shards) :
    (processShard session search rtime st s n).scraped = st.scraped ++ [shardKeyOf s] ∧
    (processShard session search rtime st s n).completed_shards =
      st.completed_shards ++ [shardKeyOf s] ∧
    (processShard session search rtime st s n).shard_num = n ∧
    (processShard session search rtime st s n).saves =
      st.saves ++ (if n % 10 = 0 then [(n, st.completed_shards.length + 1)] else []) := by
  refine ⟨rfl, ?_, rfl, ?_⟩
  · simp only [processShard]
    rw [if_neg hkey]
  · simp only [processShard]
    rw [if_neg hkey]
    by_cases hn : n % 10 = 0
    · simp [hn, List.length_append]
    · simp [hn]

theorem runLoop_cons_no_cap (session : Option SessionOracle) (search : String → Bool)
    (rtime : Nat → ℚ) (s : Shard) (rest : List Shard) (st : OrchState)
    (hkey : shardKeyOf s ∉ st.completed_shards) :
    runLoop session search rtime none (s :: rest) st =
      runLoop session search rtime none rest
        (processShard session search rtime { st with shard_num := st.shard_num + 1 } s
          (st.shard_num + 1)) := by
  simp only [runLoop, capHit]
  rw [if_neg (by simp)]
  rw [if_neg hkey]

theorem runLoop_trace (session : Option SessionOracle) (search : String → Bool)
    (rtime : Nat → ℚ) :
    ∀ (L : List Shard) (st : OrchState),
      (∀ s ∈ L, shardKeyOf s ∉ st.completed_shards) →
      (L.map shardKeyOf).Nodup →
      (runLoop session search rtime none L st).scraped = st.scraped ++ L.map shardKeyOf ∧
      (runLoop session search rtime none L st).completed_shards =
        st.completed_shards ++ L.map shardKeyOf ∧
      (runLoop session search rtime none L st).shard_num = st.shard_num + L.length ∧
      (runLoop session search rtime none L st).saves =
        st.saves ++ savesFor st.shard_num st.completed_shards.length L.length := by
  intro L
  induction L with
  | nil =>
      intro st _ _
      simp [runLoop, savesFor]
  | cons s rest ih =>
      intro st hfresh hnd
      have hkey : shardKeyOf s ∉ st.completed_shards := hfresh s (List.mem_cons_self s rest)
      have hnd' : (shardKeyOf s :: rest.map shardKeyOf).Nodup := by simpa using hnd
      have hsk : shardKeyOf s ∉ rest.map shardKeyOf := (List.nodup_cons.mp hnd').1
      have hndr : (rest.map shardKeyOf).Nodup := (List.nodup_cons.mp hnd').2
      have pt := processShard_trace session search rtime
        { st with shard_num := st.shard_num + 1 } s (st.shard_num + 1) hkey
      have hfresh' : ∀ s' ∈ rest, shardKeyOf s' ∉
          (processShard session search rtime { st with shard_num := st.shard_num + 1 } s
            (st.shard_num + 1)).completed_shards := by
        intro s' hs'
        rw [pt.2.1]
        intro hmem
        rcases List.mem_append.mp hmem with hmem | hmem
        · exact hfresh s' (List.mem_cons_of_mem s hs') hmem
        · simp only [List.mem_singleton] at hmem
          exact hsk (hmem ▸ List.mem_map_of_mem shardKeyOf hs')
      obtain ⟨ha, hb, hc, hd⟩ := ih
        (processShard session search rtime { st with shard_num := st.shard_num + 1 } s
          (st.shard_num + 1)) hfresh' hndr
      rw [runLoop_cons_no_cap session search rtime s rest st hkey]
      have hlen : (processShard session search rtime
          { st with shard_num := st.shard_num + 1 } s
          (st.shard_num + 1)).completed_shards.length =
          st.completed_shards.length + 1 := by
        rw [pt.2.1]
        simp
      refine ⟨?_, ?_, ?_, ?_⟩
      · rw [ha, pt.1]
        simp
      · rw [hb, pt.2.1]
        simp
      · rw [hc, pt.2.2.1]
        simp only [List.length_cons]
        omega
      · rw [hd, pt.2.2.2, hlen, pt.2.2.1]
        simp only [List.length_cons, savesFor]
        simp [List.append_assoc]

/-- C3 (counterexample): The claim says a resource-setup failure (no
valid session) aborts the run before any shard is attempted.  But
`scrape_all_shards_api_only` never checks the value returned by
`setup_session()`: with a `None` session every page request raises inside
`get_jobs_api` and is swallowed, and the orchestrator loop still scrapes
all 126 shards (zero-yield each) instead of aborting. -/
theorem C3_counterexample :
    (scrape_all_shards_api_only none (fun _ => false) (fun _ => 0) none [] [] []
        []).scraped.length = 126 := by
  decide

/-- C3 (amended): Setup failure does not abort the run, and nothing
produces an error result for the whole run: (a) for every session oracle
(including a failed one), denylist pattern and timing oracle, the
orchestrator loop scrapes every one of the 126 generated shards in order —
per-shard and per-record failures are swallowed below the loop, which
always continues to the next shard; (b) with a failed setup (`None`
session) all 126 shards are still attempted, every shard ledger row
records zero yield, and the rate governor receives an error signal for
every shard. -/
theorem C3_failure_propagation_amended :
    (∀ (session : Option SessionOracle) (search : String → Bool) (rtime : Nat → ℚ),
      (scrape_all_shards_api_only session search rtime none [] [] [] []).scraped =
        (generate_prioritized_shards none).map shardKeyOf) ∧
    (scrape_all_shards_api_only none (fun _ => false) (fun _ => 0) none [] [] []
        []).scraped.length = 126 ∧
    (scrape_all_shards_api_only none (fun _ => false) (fun _ => 0) none [] [] []
        []).limiter.error_count = 126 ∧
    ∀ p ∈ (scrape_all_shards_api_only none (fun _ => false) (fun _ => 0) none [] [] []
        []).shard_results, p.2.job_count = 0 := by
  refine ⟨?_, by decide, by decide, by decide⟩
  intro session search rtime
  have h := (runLoop_trace session search rtime (generate_prioritized_shards none)
    { all_jobs := [], seen_job_ids := List.map (fun j : Job => j.job_id) [],
      shard_mappings := [], shard_results := [], completed_shards := [],
      limiter := limiterInit, shard_num := 0, saves := [], scraped := [] }
    (fun _ _ => List.not_mem_nil _) (by decide)).1
  simpa [scrape_all_shards_api_only] using h

/-- C4 (counterexample): The claim says a final checkpoint is performed
when the run completes (e.g. the shard cap is reached), so persisted
progress is never behind the last completed shard.  But `save_progress` is
only called at `shard_num % 10 == 0` inside the loop and never after it:
a capped run of 3 shards completes 3 shards and performs zero saves —
persisted progress is 3 shards behind at exit. -/
theorem C4_counterexample :
    (scrape_all_shards_api_only none (fun _ => false) (fun _ => 0) (some 3) [] [] []
        []).saves = [] ∧
    (scrape_all_shards_api_only none (fun _ => false) (fun _ => 0) (some 3) [] [] []
        []).completed_shards.length = 3 := by
  constructor <;> decide

/-- C4 (amended): For every session/denylist/timing oracle, the
cap-free fresh run checkpoints exactly at the shards whose iteration index
is a multiple of 10 — persisting 10, 20, ..., 120 completed shards — and
performs no final checkpoint: the run completes 126 shards, so persisted
progress at exit is 6 shards behind the last completed shard (and up to 9
behind in general). -/
theorem C4_final_checkpoint_amended (session : Option SessionOracle)
    (search : String → Bool) (rtime : Nat → ℚ) :
    (scrape_all_shards_api_only session search rtime none [] [] [] []).saves =
      [(10, 10), (20, 20), (30, 30), (40, 40), (50, 50), (60, 60), (70, 70), (80, 80),
        (90, 90), (100, 100), (110, 110), (120, 120)] ∧
    (scrape_all_shards_api_only session search rtime none [] [] [] []).completed_shards.length
      = 126 ∧
    ∀ p ∈ (scrape_all_shards_api_only session search rtime none [] [] [] []).saves,
      p.2 ≤ 120 := by
  have h := runLoop_trace session search rtime (generate_prioritized_shards none)
    { all_jobs := [], seen_job_ids := List.map (fun j : Job => j.job_id) [],
      shard_mappings := [], shard_results := [], completed_shards := [],
      limiter := limiterInit, shard_num := 0, saves := [], scraped := [] }
    (fun _ _ => List.not_mem_nil _) (by decide)
  have hsaves : (scrape_all_shards_api_only session search rtime none [] [] [] []).saves =
      savesFor 0 0 126 := by
    have := h.2.2.2
    simpa [scrape_all_shards_api_only] using this
  have hcomp : (scrape_all_shards_api_only session search rtime none [] [] []
      []).completed_shards = (generate_prioritized_shards none).map shardKeyOf := by
    have := h.2.1
    simpa [scrape_all_shards_api_only] using this
  refine ⟨?_, ?_, ?_⟩
  · rw [hsaves]
    decide
  · rw [hcomp]
    decide
  · rw [hsaves]
    decide

theorem getJobsApiGo_snd (pages : Nat → List String) (details : String → Option Job)
    (search : String → Bool) (count : Nat) :
    ∀ (fuel page : Nat) (acc : List Job) (reqs : Nat),
      (getJobsApiGo (fun i => Except.ok (pages i)) details search count fuel page acc
        reqs).2 = reqs + pageRequests pages count fuel page := by
  intro fuel
  induction fuel with
  | zero =>
      intro page acc reqs
      simp [getJobsApiGo, pageRequests]
  | succ fuel ih =>
      intro page acc reqs
      simp only [getJobsApiGo, pageRequests]
      by_cases he : (pages page).isEmpty
      · rw [if_pos he, if_pos he]
      · rw [if_neg he, if_neg he]
        by_cases h1 : (pages page).length < count
        · rw [if_pos h1, if_pos h1]
        · rw [if_neg h1, if_neg h1]
          by_cases h2 : (pages page).length = count
          · rw [if_pos h2, if_pos h2, ih]
            omega
          · rw [if_neg h2, if_neg h2]

theorem pageRequests_succ (pages : Nat → List String) (count fuel page : Nat) :
    pageRequests pages count (fuel + 1) page =
      if (pages page).isEmpty then 1
      else if (pages page).length < count then 1
      else if (pages page).length = count then
        1 + pageRequests pages count fuel (page + 1)
      else 1 := rfl

theorem pageRequests_stop (pages : Nat → List String) (count fuel page : Nat)
    (h : (pages page).length < count) :
    pageRequests pages count (fuel + 1) page = 1 := by
  rw [pageRequests_succ]
  split_ifs <;> omega

theorem pageRequests_full (pages : Nat → List String) (count fuel page : Nat)
    (hc : 0 < count) (h : (pages page).length = count) :
    pageRequests pages count (fuel + 1) page =
      1 + pageRequests pages count fuel (page + 1) := by
  have hne : (pages page).isEmpty = false := by
    rcases hps : pages page with _ | ⟨a, l⟩
    · rw [hps] at h
      simp at h
      omega
    · rfl
  rw [pageRequests_succ, if_neg (by simp [hne]), if_neg (by omega), if_pos h]

theorem pageRequests_last (pages : Nat → List String) (count page : Nat) :
    pageRequests pages count 1 page = 1 := by
  have h : pageRequests pages count 1 page =
      if (pages page).isEmpty then 1
      else if (pages page).length < count then 1
      else if (pages page).length = count then
        1 + pageRequests pages count 0 (page + 1)
      else 1 := pageRequests_succ pages count 0 page
  rw [h]
  split_ifs <;> simp [pageRequests]

/-- C5: Pagination termination for the primary listing loop of
`get_jobs_api`, over a transport that answers every request with a
well-formed page (at most `count` identifiers, no transport error): the
number of page requests `R` issued for a shard satisfies `1 ≤ R ≤ 5` (the
fixed safety cap `MAX_PAGES_PER_SHARD = 5`); every page that was followed
by another request had exactly `count` identifiers (a full page is the
only condition that advances); if the loop stopped before the cap, the
last page fetched had fewer than `count` identifiers (a short page is the
only other stop condition); and for the stub returning exactly `count`
then `count - 1` identifiers on successive pages, exactly 2 page requests
are issued. -/
theorem C5_pagination_termination (pages : Nat → List String)
    (details : String → Option Job) (search : String → Bool) (count R : Nat)
    (hR : R = (get_jobs_api (fun i => Except.ok (pages i)) details search count).2)
    (hc : 0 < count) (hcap : ∀ i, (pages i).length ≤ count) :
    (1 ≤ R ∧ R ≤ 5) ∧
    (∀ i, i + 1 < R → (pages i).length = count) ∧
    (R < 5 → (pages (R - 1)).length < count) ∧
    ((pages 0).length = count → (pages 1).length = count - 1 → R = 2) := by
  have hsnd : (get_jobs_api (fun i => Except.ok (pages i)) details search count).2 =
      0 + pageRequests pages count 5 0 :=
    getJobsApiGo_snd pages details search count 5 0 [] 0
  rw [hsnd] at hR
  by_cases h0 : (pages 0).length = count
  · have s0 : pageRequests pages count 5 0 = 1 + pageRequests pages count 4 1 :=
      pageRequests_full pages count 4 0 hc h0
    by_cases h1 : (pages 1).length = count
    · have s1 : pageRequests pages count 4 1 = 1 + pageRequests pages count 3 2 :=
        pageRequests_full pages count 3 1 hc h1
      by_cases h2 : (pages 2).length = count
      · have s2 : pageRequests pages count 3 2 = 1 + pageRequests pages count 2 3 :=
          pageRequests_full pages count 2 2 hc h2
        by_cases h3 : (pages 3).length = count
        · -- four full pages: the safety cap ends the loop at 5 requests
          have s3 : pageRequests pages count 2 3 = 1 + pageRequests pages count 1 4 :=
            pageRequests_full pages count 1 3 hc h3
          have s4 : pageRequests pages count 1 4 = 1 := pageRequests_last pages count 4
          have hR5 : R = 5 := by rw [hR, s0, s1, s2, s3, s4]
          refine ⟨by omega, ?_, by omega, ?_⟩
          · intro i hi
            have : i = 0 ∨ i = 1 ∨ i = 2 ∨ i = 3 := by omega
            rcases this with h | h | h | h <;> rw [h] <;> assumption
          · intro _ hd1
            rw [h1] at hd1
            omega
        · -- three full pages, then a short page 3: 4 requests
          have h3' : (pages 3).length < count := lt_of_le_of_ne (hcap 3) h3
          have s3 : pageRequests pages count 2 3 = 1 :=
            pageRequests_stop pages count 1 3 h3'
          have hR4 : R = 4 := by rw [hR, s0, s1, s2, s3]
          refine ⟨by omega, ?_, fun _ => ?_, ?_⟩
          · intro i hi
            have : i = 0 ∨ i = 1 ∨ i = 2 := by omega
            rcases this with h | h | h <;> rw [h] <;> assumption
          · rw [hR4]
            exact h3'
          · intro _ hd1
            rw [h1] at hd1
            omega
      · -- two full pages, then a short page 2: 3 requests
        have h2' : (pages 2).length < count := lt_of_le_of_ne (hcap 2) h2
        have s2 : pageRequests pages count 3 2 = 1 :=
          pageRequests_stop pages count 2 2 h2'
        have hR3 : R = 3 := by rw [hR, s0, s1, s2]
        refine ⟨by omega, ?_, fun _ => ?_, ?_⟩
        · intro i hi
          have : i = 0 ∨ i = 1 := by omega
          rcases this with h | h <;> rw [h] <;> assumption
        · rw [hR3]
          exact h2'
        · intro _ hd1
          rw [h1] at hd1
          omega
    · -- one full page, then a short page 1: the claim's 2-request stub
      have h1' : (pages 1).length < count := lt_of_le_of_ne (hcap 1) h1
      have s1 : pageRequests pages count 4 1 = 1 :=
        pageRequests_stop pages count 3 1 h1'
      have hR2 : R = 2 := by rw [hR, s0, s1]
      refine ⟨by omega, ?_, fun _ => ?_, fun _ _ => hR2⟩
      · intro i hi
        have : i = 0 := by omega
        rw [this]
        exact h0
      · rw [hR2]
        exact h1'
  · -- a short first page: a single request
    have h0' : (pages 0).length < count := lt_of_le_of_ne (hcap 0) h0
    have s0 : pageRequests pages count 5 0 = 1 := pageRequests_stop pages count 4 0 h0'
    have hR1 : R = 1 := by rw [hR, s0]
    refine ⟨by omega, fun i hi => absurd hi (by omega), fun _ => ?_,
      fun hd0 _ => absurd hd0 h0⟩
    rw [hR1]
    exact h0'

/-- C5 (witness): The theorem applied to the stub whose every page is
empty, with `count = 1`: the request count lands inside the `[1, 5]`
band. -/
theorem C5_pagination_termination_witness :
    1 ≤ (get_jobs_api (fun _ => Except.ok ([] : List String)) (fun _ => none)
      (fun _ => false) 1).2 ∧
    (get_jobs_api (fun _ => Except.ok ([] : List String)) (fun _ => none)
      (fun _ => false) 1).2 ≤ 5 := by
  have h := C5_pagination_termination (fun _ => ([] : List String)) (fun _ => none)
    (fun _ => false) 1
    ((get_jobs_api (fun _ => Except.ok ([] : List String)) (fun _ => none)
      (fun _ => false) 1).2) rfl (by norm_num) (fun i => by simp)
  exact h.1

/-- C2 (amended, witness): on the oracle whose first page is empty, the
fallback-invoked flag is equivalent to the API result being empty. -/
theorem C2_fallback_amended_witness :
    (scrape_shard_optimized (fun _ => Except.ok ([] : List String)) (fun _ => none)
        (fun _ => false) []).2 = true ↔
      (get_jobs_api (fun _ => Except.ok ([] : List String)) (fun _ => none)
        (fun _ => false) 100).1 = [] :=
  (C2_fallback_amended (fun _ => Except.ok ([] : List String)) (fun _ => none)
    (fun _ => false) []).1

/-- C3 (amended, witness): the failed-setup run scrapes exactly the full
generated shard sequence. -/
theorem C3_failure_propagation_amended_witness :
    (scrape_all_shards_api_only none (fun _ => false) (fun _ => 0) none [] [] []
        []).scraped = (generate_prioritized_shards none).map shardKeyOf :=
  C3_failure_propagation_amended.1 none (fun _ => false) (fun _ => 0)

/-- C4 (amended, witness): the failed-setup cap-free run checkpoints at
10, 20, ..., 120 completed shards and never afterwards. -/
theorem C4_final_checkpoint_amended_witness :
    (scrape_all_shards_api_only none (fun _ => false) (fun _ => 0) none [] [] []
        []).saves =
      [(10, 10), (20, 20), (30, 30), (40, 40), (50, 50), (60, 60), (70, 70), (80, 80),
        (90, 90), (100, 100), (110, 110), (120, 120)] :=
  (C4_final_checkpoint_amended none (fun _ => false) (fun _ => 0)).1

/-- C10 (witness): with the concrete always-matching pattern, the three
unextractable company-name values still pass the filter. -/
theorem C10_blacklist_unextracted_safe_witness :
    is_blacklisted (fun _ => true) none = false ∧
    is_blacklisted (fun _ => true) (some "") = false ∧
    is_blacklisted (fun _ => true) (some "N/A") = false :=
  C10_blacklist_unextracted_safe (fun _ => true)
